import Mathlib

/-!
Verification of the format-normalization and URL-handling logic of the
YouTube downloader front end (`script.js`).

The embedding is shallow: each JavaScript function relevant to the claims is
translated into an executable Lean definition.

Modelling conventions:
* JavaScript strings are `String`; absent (`undefined`) fields are `Option`.
* The JS short-circuit default `x || d` on strings treats both `undefined`
  and the empty string as falsy; `jsOrStr` reproduces this.
* `Array.prototype.sort(cmp)` is required by ECMAScript to be stable, and its
  result is only pinned down when `cmp` is a consistent comparison function;
  we model it as the canonical stable insertion sort keyed on `cmp a b ≤ 0`
  (`jsSort`).  For consistent comparators every conforming stable sort,
  including `jsSort`, produces the same list; every theorem below uses the
  model only where this holds — with a consistent comparator (the audio
  comparator always, the video comparator on all-ladder-ranked input) or
  with a conclusion invariant under permutation of the sorted list
  (membership, tags, lengths) — so no result depends on the order an engine
  chooses for an inconsistent comparator.
* The two regular expressions of `script.js` are translated into explicit
  character-list matchers, mirroring the backtracking semantics (latest
  start position for a greedy leading `.*`, alternation tried left to right,
  greedy character classes).
-/

/-! ## Generic string helpers -/

/-- Line terminators for the JS regex dot (`.` matches everything else). -/
def isLineTerm (c : Char) : Bool :=
  c = '\n' || c = '\r' || c = '\u2028' || c = '\u2029'

/-- JS `\w` character class: ASCII letters, digits and underscore. -/
def isWordChar (c : Char) : Bool :=
  c.isAlphanum || c = '_'

/-- JS `[\w-]` character class. -/
def isWordDash (c : Char) : Bool :=
  isWordChar c || c = '-'

/-- JS `\s` (whitespace) class, restricted to the code points that can occur
in the strings of this development. -/
def isJsSpace (c : Char) : Bool :=
  c = ' ' || c = '\t' || c = '\n' || c = '\r' || c = '\x0b' || c = '\x0c' ||
  c = '\u00A0' || c = '\uFEFF' || c = '\u2028' || c = '\u2029'

/-- `listStarts pre s` holds when `s` begins with `pre`. -/
def listStarts : List Char → List Char → Bool
  | [], _ => true
  | _ :: _, [] => false
  | p :: ps, c :: cs => p = c && listStarts ps cs

/-- Substring test on character lists (JS `String.prototype.includes`). -/
def hasSub (needle : List Char) : List Char → Bool
  | [] => listStarts needle []
  | c :: cs => listStarts needle (c :: cs) || hasSub needle cs

/-- JS string default `x || d`: `undefined` and `""` are falsy. -/
def jsOrStr (o : Option String) (d : String) : String :=
  match o with
  | none => d
  | some s => if s = "" then d else s

/-- JS `Array.prototype.indexOf` on a list of strings, `-1` when absent. -/
def jsIndexOf : List String → String → Int
  | [], _ => -1
  | x :: xs, s =>
    if x = s then 0
    else
      let r := jsIndexOf xs s
      if r = -1 then -1 else r + 1

/-- Insert one element into a list that is already in comparator order,
placing it before the first element `b` with `cmp a b ≤ 0` (this is what
keeps the sort stable). -/
def insertCmp (cmp : α → α → Int) (a : α) : List α → List α
  | [] => [a]
  | b :: bs => if cmp a b ≤ 0 then a :: b :: bs else b :: insertCmp cmp a bs

/-- Model of `Array.prototype.sort(cmp)`: stable insertion sort keyed on the
sign of the comparator. -/
def jsSort (cmp : α → α → Int) : List α → List α
  | [] => []
  | a :: as => insertCmp cmp a (jsSort cmp as)

/-! ## Data model (`processFormats` in `script.js`) -/

/-- One raw format entry as produced by the extraction backend.  Every field
may be absent in the JSON, hence `Option`. -/
structure FormatDescriptor where
  format_id : Option String := none
  ext : Option String := none
  vcodec : Option String := none
  acodec : Option String := none
  resolution : Option String := none
  format_note : Option String := none
  filesize : Option Nat := none
deriving DecidableEq

/-- One normalized entry pushed onto `currentFormats.video` or
`currentFormats.audio`.  The audio objects name their note field `bitrate`
in the source; it is computed by the same expression `format_note || ''`,
so both are modelled by the single field `note`. -/
structure NormalizedFormat where
  id : String
  quality : String
  size : Nat
  extension : String
  type : String
  note : String
  isBest : Bool
deriving DecidableEq

/-- The pair of lists held in `currentFormats`. -/
structure ProcessedFormats where
  video : List NormalizedFormat
  audio : List NormalizedFormat
deriving DecidableEq

/-- JS `format.format_note?.toLowerCase().includes('best') || false`. -/
def isBestNote (note : Option String) : Bool :=
  match note with
  | none => false
  | some s => hasSub "best".data (s.data.map Char.toLower)

/-- Video branch of the `forEach` in `processFormats`. -/
def normalizeVideo (f : FormatDescriptor) : NormalizedFormat :=
  { id := jsOrStr f.format_id "best"
    quality := jsOrStr f.resolution (jsOrStr f.format_note "HD")
    size := f.filesize.getD 0
    extension := jsOrStr f.ext "mp4"
    type := "video"
    note := jsOrStr f.format_note ""
    isBest := isBestNote f.format_note }

/-- Audio branch of the `forEach` in `processFormats`. -/
def normalizeAudio (f : FormatDescriptor) : NormalizedFormat :=
  { id := jsOrStr f.format_id "bestaudio"
    quality := jsOrStr f.format_note "Audio"
    size := f.filesize.getD 0
    extension := jsOrStr f.ext "mp3"
    type := "audio"
    note := jsOrStr f.format_note ""
    isBest := isBestNote f.format_note }

/-- Classification test `format.vcodec !== 'none'` (an absent `vcodec` is
`undefined`, which is also `!== 'none'`). -/
def keepVideo (f : FormatDescriptor) : Option NormalizedFormat :=
  if f.vcodec ≠ some "none" then some (normalizeVideo f) else none

/-- The `else if (format.acodec !== 'none')` branch. -/
def keepAudio (f : FormatDescriptor) : Option NormalizedFormat :=
  if f.vcodec ≠ some "none" then none
  else if f.acodec ≠ some "none" then some (normalizeAudio f) else none

/-- The fixed quality ladder `qualityOrder` of the video comparator. -/
def qualityOrder : List String :=
  ["4K", "1440p", "1080p", "720p", "480p", "360p", "240p", "144p"]

/-- The video sort comparator of `processFormats`, verbatim:
if both qualities are on the ladder it returns `bIndex - aIndex`; otherwise
a `best`-flagged entry wins; otherwise sizes are compared descending. -/
def videoCompare (a b : NormalizedFormat) : Int :=
  let aIndex := jsIndexOf qualityOrder a.quality
  let bIndex := jsIndexOf qualityOrder b.quality
  if aIndex ≠ -1 ∧ bIndex ≠ -1 then bIndex - aIndex
  else if a.isBest then -1
  else if b.isBest then 1
  else (b.size : Int) - (a.size : Int)

/-- The audio sort comparator `(a, b) => b.size - a.size`. -/
def audioCompare (a b : NormalizedFormat) : Int :=
  (b.size : Int) - (a.size : Int)

/-- `processFormats`: classify every descriptor (in order) with the
`if`/`else if` of the `forEach`, then sort each list with its comparator.
The early return on an empty input produces the same value as the general
path, since sorting the empty list is the empty list. -/
def processFormats (formats : List FormatDescriptor) : ProcessedFormats :=
  { video := jsSort videoCompare (formats.filterMap keepVideo)
    audio := jsSort audioCompare (formats.filterMap keepAudio) }

/-! ## Display layer (`displayFormats` in `script.js`) -/

/-- Observable outcome of `displayFormats`: either the no-formats message, or
the rendered cards together with the format-count text. -/
inductive DisplayResult where
  | noFormats : DisplayResult
  | showing : List NormalizedFormat → String → DisplayResult
deriving DecidableEq

/-- The count line `Showing N of M formats`. -/
def countText (shown total : Nat) : String :=
  "Showing " ++ toString shown ++ " of " ++ toString total ++ " formats"

/-- `displayFormats`: empty list renders the no-formats message and returns;
otherwise the first six entries (`formats.slice(0, 6)`) are rendered and the
count line is appended. -/
def displayFormatsModel (formats : List NormalizedFormat) : DisplayResult :=
  if formats.length = 0 then DisplayResult.noFormats
  else
    let shown := formats.take 6
    DisplayResult.showing shown (countText shown.length formats.length)

/-! ## URL validation (`isValidYouTubeUrl` in `script.js`)

Each of the five regular expressions is anchored (`^...$`) and consists of
optional literal groups followed by a literal prefix and a constrained
remainder; each matcher below enumerates the finitely many choices for the
optional groups, which is exactly the set of parses the backtracking regex
engine explores. -/

/-- Choices for the optional group `(https?:\/\/)?`. -/
def schemeOpts : List String := ["", "http://", "https://"]

/-- Choices for the optional group `(www\.)?`. -/
def wwwOpts : List String := ["", "www."]

/-- Choices for the alternation `(youtube\.com|youtu\.?be)`: the optional
dot in `youtu\.?be` makes it match both `youtu.be` and `youtube`. -/
def hostOpts : List String := ["youtube.com", "youtu.be", "youtube"]

/-- `withPre mid restOk s` holds when `s` is scheme-choice ++ www-choice ++
`mid` followed by a remainder accepted by `restOk`. -/
def withPre (mid : String) (restOk : List Char → Bool) (s : String) : Bool :=
  schemeOpts.any fun sc => wwwOpts.any fun w =>
    let pre := (sc ++ w ++ mid).data
    listStarts pre s.data && restOk (s.data.drop pre.length)

/-- Remainder `.+$` of the first pattern: nonempty, no line terminators. -/
def restAnyPath (rest : List Char) : Bool :=
  !rest.isEmpty && rest.all (fun c => !isLineTerm c)

/-- Remainder `[\w-]+$`: a nonempty run of word or hyphen characters to the
end of the string. -/
def restIdOnly (rest : List Char) : Bool :=
  !rest.isEmpty && rest.all isWordDash

/-- Remainder `[\w-]+(&\S*)?$`.  The class `[\w-]` never matches `&`, so the
greedy run is exactly `takeWhile isWordDash` and no backtracking into the
run can help; after it the string must end, or continue with `&` followed by
non-whitespace characters up to the end. -/
def restIdQuery (rest : List Char) : Bool :=
  let run := rest.takeWhile isWordDash
  !run.isEmpty &&
    (let t := rest.drop run.length
     t.isEmpty ||
       (match t with
        | '&' :: t2 => t2.all (fun c => !isJsSpace c)
        | _ => false))

/-- Pattern `^(https?:\/\/)?(www\.)?(youtube\.com|youtu\.?be)\/.+$`. -/
def matchesAnyPath (s : String) : Bool :=
  hostOpts.any fun h => withPre (h ++ "/") restAnyPath s

/-- Pattern `^(https?:\/\/)?(www\.)?youtube\.com\/watch\?v=[\w-]+(&\S*)?$`. -/
def matchesWatch (s : String) : Bool :=
  withPre "youtube.com/watch?v=" restIdQuery s

/-- Pattern `^(https?:\/\/)?(www\.)?youtu\.be\/[\w-]+$`. -/
def matchesShort (s : String) : Bool :=
  withPre "youtu.be/" restIdOnly s

/-- Pattern `^(https?:\/\/)?(www\.)?youtube\.com\/shorts\/[\w-]+$`. -/
def matchesShorts (s : String) : Bool :=
  withPre "youtube.com/shorts/" restIdOnly s

/-- Pattern `^(https?:\/\/)?(www\.)?youtube\.com\/playlist\?list=[\w-]+$`. -/
def matchesPlaylist (s : String) : Bool :=
  withPre "youtube.com/playlist?list=" restIdOnly s

/-- `isValidYouTubeUrl`: `patterns.some(p => p.test(url))`. -/
def isValidYouTubeUrl (url : String) : Bool :=
  matchesAnyPath url || matchesWatch url || matchesShort url ||
  matchesShorts url || matchesPlaylist url

/-! ## Video-id extraction (`extractYouTubeId` in `script.js`)

The regex is `^.*(youtu\.be\/|v\/|u\/\w\/|embed\/|watch\?v=|&v=|\?v=)`
`([^#&?]*).*`.  Since there is no end anchor, the trailing `.*` always
succeeds, so the match is determined by the greedy leading `.*`: the engine
selects the latest start position for group 1 that the leading `.*` can
reach (it cannot cross a line terminator), trying the alternatives left to
right at each position, and then captures group 2 as the longest run of
characters other than `#`, `&` and `?`. -/

/-- Try the seven alternatives of group 1, in order, at the head of `s`,
returning the length of the matched token. -/
def matchAlt (s : List Char) : Option Nat :=
  if listStarts "youtu.be/".data s then some 9
  else if listStarts "v/".data s then some 2
  else if (match s with
           | 'u' :: '/' :: c :: '/' :: _ => isWordChar c
           | _ => false) then some 4
  else if listStarts "embed/".data s then some 6
  else if listStarts "watch?v=".data s then some 8
  else if listStarts "&v=".data s then some 3
  else if listStarts "?v=".data s then some 3
  else none

/-- Scan for the latest position reachable by the greedy `^.*` at which an
alternative of group 1 matches; return the suffix following the token.
Positions beyond a line terminator are unreachable because `.` does not
match line terminators. -/
def extractScan : List Char → Option (List Char)
  | [] => none
  | c :: cs =>
    let later := if isLineTerm c then none else extractScan cs
    match later with
    | some r => some r
    | none => (matchAlt (c :: cs)).map fun n => (c :: cs).drop n

/-- Character class `[^#&?]` of capture group 2. -/
def notCapEnd (c : Char) : Bool :=
  !(c = '#' || c = '&' || c = '?')

/-- `extractYouTubeId`: run the regex, then return group 2 only when it is
exactly 11 characters long, and `null` otherwise. -/
def extractYouTubeId (url : String) : Option String :=
  match extractScan url.data with
  | none => none
  | some rest =>
    let cap := rest.takeWhile notCapEnd
    if cap.length = 11 then some (String.mk cap) else none

/-! ## Concrete inputs used by the claims -/

/-- A plain video descriptor with the given resolution label. -/
def ladderDesc (res : String) : FormatDescriptor :=
  { vcodec := some "avc1", resolution := some res, filesize := some 1000 }

/-- A plain audio-only descriptor with the given file size. -/
def audioDesc (n : Nat) : FormatDescriptor :=
  { vcodec := some "none", acodec := some "mp4a", filesize := some n }

/-- A descriptor with every field absent. -/
def emptyDescriptor : FormatDescriptor := {}

/-- A descriptor is usable when at least one codec differs from the string
none; exactly these descriptors are kept by the classification. -/
def usableDesc (f : FormatDescriptor) : Bool :=
  f.vcodec != some "none" || f.acodec != some "none"

/-- A concrete normalized entry used by witnesses. -/
def nfEntry (n : Nat) : NormalizedFormat :=
  { id := "f" ++ toString n, quality := "HD", size := n, extension := "mp4",
    type := "video", note := "", isBest := false }

/-- A ranked list of seven entries. -/
def sevenEntries : List NormalizedFormat :=
  (List.range 7).map nfEntry

/-- Concrete descriptors witnessing claim C2: one video, one audio-only, one
dropped. -/
def wVideo : FormatDescriptor :=
  { vcodec := some "avc1", resolution := some "720p" }

/-- Audio-only descriptor for the claim C2 witness. -/
def wAudio : FormatDescriptor :=
  { vcodec := some "none", acodec := some "opus" }

/-- Dropped descriptor (both codecs the string none). -/
def wDropped : FormatDescriptor :=
  { vcodec := some "none", acodec := some "none" }

/-- Mixed list for the claim C2 witness. -/
def wMixed : List FormatDescriptor := [wVideo, wAudio, wDropped]

/-! ## Generic facts about the sort model -/

theorem insertCmp_perm (cmp : α → α → Int) (a : α) (l : List α) :
    List.Perm (insertCmp cmp a l) (a :: l) := by
  induction l with
  | nil => simp [insertCmp]
  | cons b bs ih =>
    simp only [insertCmp]
    split
    · exact List.Perm.refl _
    · exact (ih.cons b).trans (List.Perm.swap a b bs)

theorem jsSort_perm (cmp : α → α → Int) (l : List α) :
    List.Perm (jsSort cmp l) l := by
  induction l with
  | nil => simp [jsSort]
  | cons a as ih =>
    exact (insertCmp_perm cmp a (jsSort cmp as)).trans (ih.cons a)

theorem mem_jsSort {cmp : α → α → Int} {x : α} {l : List α} :
    x ∈ jsSort cmp l ↔ x ∈ l :=
  (jsSort_perm cmp l).mem_iff

theorem length_jsSort (cmp : α → α → Int) (l : List α) :
    (jsSort cmp l).length = l.length :=
  (jsSort_perm cmp l).length_eq

theorem pairwise_insertCmp {cmp : α → α → Int}
    (htot : ∀ a b, ¬ cmp a b ≤ 0 → cmp b a ≤ 0)
    (htrans : ∀ a b c, cmp a b ≤ 0 → cmp b c ≤ 0 → cmp a c ≤ 0)
    (a : α) {l : List α} (h : l.Pairwise fun x y => cmp x y ≤ 0) :
    (insertCmp cmp a l).Pairwise fun x y => cmp x y ≤ 0 := by
  induction l with
  | nil => simp [insertCmp]
  | cons b bs ih =>
    rcases List.pairwise_cons.mp h with ⟨hb, hbs⟩
    simp only [insertCmp]
    split
    case isTrue hab =>
      refine List.pairwise_cons.mpr ⟨?_, h⟩
      intro y hy
      rcases List.mem_cons.mp hy with h1 | hy2
      · subst h1; exact hab
      · exact htrans _ _ _ hab (hb y hy2)
    case isFalse hab =>
      refine List.pairwise_cons.mpr ⟨?_, ih hbs⟩
      intro y hy
      rcases List.mem_cons.mp ((insertCmp_perm cmp a bs).mem_iff.mp hy) with h1 | hy2
      · subst h1; exact htot _ _ hab
      · exact hb y hy2

theorem pairwise_jsSort {cmp : α → α → Int}
    (htot : ∀ a b, ¬ cmp a b ≤ 0 → cmp b a ≤ 0)
    (htrans : ∀ a b c, cmp a b ≤ 0 → cmp b c ≤ 0 → cmp a c ≤ 0)
    (l : List α) :
    (jsSort cmp l).Pairwise fun x y => cmp x y ≤ 0 := by
  induction l with
  | nil => simp [jsSort]
  | cons a as ih => exact pairwise_insertCmp htot htrans a ih

/-! ## Claim theorems -/

/-- Claim C7: `processFormats` applied to the empty descriptor list returns
empty video and audio lists; the empty result is an ordinary value, not a
failure. -/
theorem claimC7_empty_input_empty_output :
    processFormats [] = { video := [], audio := [] } := rfl

/-- Claim C1 (evaluation at the failing input): the video comparator returns
`bIndex - aIndex` when both qualities are on the ladder, which sorts the
list with LOWER ladder qualities first.  At the spec's own example input
with resolutions 720p, 4K, 360p the output order is 360p, 720p, 4K — the
reverse of the claimed 4K, 720p, 360p. -/
theorem claimC1_ladder_sort_is_ascending_at_example :
    ((processFormats [ladderDesc "720p", ladderDesc "4K", ladderDesc "360p"]).video.map
      fun nf => nf.quality) = ["360p", "720p", "4K"] := by decide

/-- Claim C6: the URL validator accepts exactly the strings matched by one of
the five patterns, and in particular accepts the three example URLs and
rejects the vimeo URL and the empty string. -/
theorem claimC6_url_validator :
    (∀ s : String, isValidYouTubeUrl s =
      (matchesAnyPath s || matchesWatch s || matchesShort s ||
       matchesShorts s || matchesPlaylist s))
    ∧ isValidYouTubeUrl "https://youtu.be/dQw4w9WgXcQ" = true
    ∧ isValidYouTubeUrl "https://www.youtube.com/watch?v=dQw4w9WgXcQ&t=10s" = true
    ∧ isValidYouTubeUrl "youtube.com/shorts/abc12345678" = true
    ∧ isValidYouTubeUrl "https://vimeo.com/12345" = false
    ∧ isValidYouTubeUrl "" = false :=
  ⟨fun _ => rfl, by decide, by decide, by decide, by decide, by decide⟩

/-- Claim C5: whenever the id extractor returns a string it has exactly 11
characters; it returns `dQw4w9WgXcQ` on the example watch URL and `null`
when the captured id is shorter than 11 characters. -/
theorem claimC5_extract_id_contract :
    (∀ (s out : String), extractYouTubeId s = some out → out.length = 11)
    ∧ extractYouTubeId "https://www.youtube.com/watch?v=dQw4w9WgXcQ" = some "dQw4w9WgXcQ"
    ∧ extractYouTubeId "https://youtu.be/short" = none := by
  refine ⟨?_, by decide, by decide⟩
  intro s out h
  rcases hscan : extractScan s.data with _ | rest
  · simp [extractYouTubeId, hscan] at h
  · simp only [extractYouTubeId, hscan] at h
    split at h
    case isTrue h11 =>
      cases h
      exact h11
    case isFalse h11 =>
      exact absurd h (by simp)

/-- Witness for claim C5: its length contract applied at the example URL,
with the capture discharged by evaluation. -/
theorem claimC5_extract_id_contract_witness :
    ("dQw4w9WgXcQ" : String).length = 11 :=
  claimC5_extract_id_contract.1 "https://www.youtube.com/watch?v=dQw4w9WgXcQ"
    "dQw4w9WgXcQ" (by decide)

/-- Claim C9 counterexample: at the empty ranked list the display layer
renders the no-formats message and does not report a count line, so the
claim's count-reporting part fails for the empty list. -/
theorem claimC9_counter_empty_list :
    displayFormatsModel [] = DisplayResult.noFormats
    ∧ displayFormatsModel [] ≠ DisplayResult.showing [] (countText 0 0) := by
  exact ⟨rfl, by decide⟩

/-- Claim C9 (amended): for every nonempty ranked format list the display
layer surfaces exactly the first 6 entries and reports the displayed count
alongside the total; entries past the sixth are never displayed. -/
theorem claimC9_first_six_with_count :
    ∀ l : List NormalizedFormat, l ≠ [] →
      displayFormatsModel l =
        DisplayResult.showing (l.take 6) (countText (min 6 l.length) l.length)
      ∧ (l.take 6).length = min 6 l.length
      ∧ (l.take 6).length ≤ 6 := by
  intro l hl
  have hlen : l.length ≠ 0 := by
    simpa [List.length_eq_zero] using hl
  refine ⟨?_, ?_, ?_⟩
  · simp [displayFormatsModel, hlen, List.length_take]
  · simp [List.length_take]
  · simp [List.length_take]

/-- Witness for claim C9 (amended) at a seven-element list. -/
theorem claimC9_first_six_with_count_witness :
    displayFormatsModel sevenEntries =
      DisplayResult.showing (sevenEntries.take 6)
        (countText (min 6 sevenEntries.length) sevenEntries.length)
    ∧ (sevenEntries.take 6).length = min 6 sevenEntries.length
    ∧ (sevenEntries.take 6).length ≤ 6 :=
  claimC9_first_six_with_count sevenEntries (by decide)

/-- Claim C8: each missing field is replaced by its fixed default during
normalization: `format_id` by best or bestaudio, extension by mp4 or mp3,
and the quality label by HD or Audio. -/
theorem claimC8_missing_field_defaults :
    ∀ f : FormatDescriptor,
      (f.format_id = none →
        (normalizeVideo f).id = "best" ∧ (normalizeAudio f).id = "bestaudio")
      ∧ (f.ext = none →
        (normalizeVideo f).extension = "mp4" ∧ (normalizeAudio f).extension = "mp3")
      ∧ (f.resolution = none → f.format_note = none →
        (normalizeVideo f).quality = "HD")
      ∧ (f.format_note = none → (normalizeAudio f).quality = "Audio") := by
  intro f
  refine ⟨fun h => ?_, fun h => ?_, fun h1 h2 => ?_, fun h => ?_⟩ <;>
    simp [normalizeVideo, normalizeAudio, jsOrStr, *]

/-- Witness for claim C8 at the all-absent descriptor. -/
theorem claimC8_missing_field_defaults_witness :
    ((normalizeVideo emptyDescriptor).id = "best"
      ∧ (normalizeAudio emptyDescriptor).id = "bestaudio")
    ∧ ((normalizeVideo emptyDescriptor).extension = "mp4"
      ∧ (normalizeAudio emptyDescriptor).extension = "mp3")
    ∧ (normalizeVideo emptyDescriptor).quality = "HD"
    ∧ (normalizeAudio emptyDescriptor).quality = "Audio" :=
  ⟨(claimC8_missing_field_defaults emptyDescriptor).1 rfl,
   (claimC8_missing_field_defaults emptyDescriptor).2.1 rfl,
   (claimC8_missing_field_defaults emptyDescriptor).2.2.1 rfl rfl,
   (claimC8_missing_field_defaults emptyDescriptor).2.2.2 rfl⟩

/-- Claim C10: the normalizer is total over malformed descriptors: a
descriptor with an absent note is never flagged best, and a descriptor with
every field absent is still classified (as video, since an absent `vcodec`
is not the string none) and normalized to the default entry. -/
theorem claimC10_total_on_malformed :
    (∀ f : FormatDescriptor, f.format_note = none →
      (normalizeVideo f).isBest = false ∧ (normalizeAudio f).isBest = false)
    ∧ processFormats [emptyDescriptor] =
        { video := [{ id := "best", quality := "HD", size := 0,
                      extension := "mp4", type := "video", note := "",
                      isBest := false }],
          audio := [] } := by
  constructor
  · intro f h
    simp [normalizeVideo, normalizeAudio, isBestNote, h]
  · decide

/-- Witness for claim C10 at the all-absent descriptor. -/
theorem claimC10_total_on_malformed_witness :
    (normalizeVideo emptyDescriptor).isBest = false
    ∧ (normalizeAudio emptyDescriptor).isBest = false :=
  claimC10_total_on_malformed.1 emptyDescriptor rfl

/-- Claim C4: the audio list is sorted by descending file size (every entry
dominates all later ones, hence zero-size and defaulted-missing-size entries
come last), and at the spec's example sizes 100, 500, 50 the output order is
500, 100, 50. -/
theorem claimC4_audio_sorted_desc_size :
    (∀ l : List FormatDescriptor,
      ((processFormats l).audio.Pairwise fun x y => y.size ≤ x.size)
      ∧ ((processFormats l).audio.Pairwise fun x y => x.size = 0 → y.size = 0))
    ∧ ((processFormats [audioDesc 100, audioDesc 500, audioDesc 50]).audio.map
        fun nf => nf.size) = [500, 100, 50] := by
  constructor
  · intro l
    have htot : ∀ a b : NormalizedFormat,
        ¬ audioCompare a b ≤ 0 → audioCompare b a ≤ 0 := by
      intro a b hab
      simp only [audioCompare] at *
      omega
    have htrans : ∀ a b c : NormalizedFormat,
        audioCompare a b ≤ 0 → audioCompare b c ≤ 0 → audioCompare a c ≤ 0 := by
      intro a b c h1 h2
      simp only [audioCompare] at *
      omega
    have hp := pairwise_jsSort htot htrans (l.filterMap keepAudio)
    constructor
    · refine hp.imp ?_
      intro a b hab
      simp only [audioCompare] at hab
      omega
    · refine hp.imp ?_
      intro a b hab ha0
      simp only [audioCompare] at hab
      omega
  · decide

/-- Length form of the classification: the two kept lists together count
exactly the descriptors with a usable codec. -/
theorem length_keep_partition (l : List FormatDescriptor) :
    (l.filterMap keepVideo).length + (l.filterMap keepAudio).length
      = (l.filter usableDesc).length := by
  induction l with
  | nil => rfl
  | cons f fs ih =>
    have hu : usableDesc f = (f.vcodec != some "none" || f.acodec != some "none") := rfl
    by_cases hv : f.vcodec = some "none" <;> by_cases ha : f.acodec = some "none" <;>
      simp [List.filterMap_cons, List.filter_cons, keepVideo, keepAudio, hu, hv, ha, ih] <;>
      omega

/-- Claim C2: classification is a partition: every descriptor with a video
codec other than none lands in the video list, every remaining descriptor
with an audio codec other than none lands in the audio list, every video
entry is tagged video and every audio entry is tagged audio (so the two
lists share no element), and the two lists together are exactly as large as
the set of non-dropped descriptors. -/
theorem claimC2_classification_partition :
    ∀ l : List FormatDescriptor,
      (∀ f ∈ l, f.vcodec ≠ some "none" →
        normalizeVideo f ∈ (processFormats l).video)
      ∧ (∀ f ∈ l, f.vcodec = some "none" → f.acodec ≠ some "none" →
        normalizeAudio f ∈ (processFormats l).audio)
      ∧ (∀ x ∈ (processFormats l).video, x.type = "video")
      ∧ (∀ x ∈ (processFormats l).audio, x.type = "audio")
      ∧ (∀ x ∈ (processFormats l).video, x ∉ (processFormats l).audio)
      ∧ (processFormats l).video.length + (processFormats l).audio.length
          = (l.filter usableDesc).length := by
  intro l
  have hvidmem : ∀ x ∈ (processFormats l).video, x.type = "video" := by
    intro x hx
    rcases List.mem_filterMap.mp (mem_jsSort.mp hx) with ⟨f, _, hk⟩
    unfold keepVideo at hk
    split at hk
    · cases hk
      rfl
    · exact Option.noConfusion hk
  have haudmem : ∀ x ∈ (processFormats l).audio, x.type = "audio" := by
    intro x hx
    rcases List.mem_filterMap.mp (mem_jsSort.mp hx) with ⟨f, _, hk⟩
    unfold keepAudio at hk
    split at hk
    · exact Option.noConfusion hk
    · split at hk
      · cases hk
        rfl
      · exact Option.noConfusion hk
  refine ⟨?_, ?_, hvidmem, haudmem, ?_, ?_⟩
  · intro f hf hvc
    refine mem_jsSort.mpr (List.mem_filterMap.mpr ⟨f, hf, ?_⟩)
    simp [keepVideo, hvc]
  · intro f hf hvc hac
    refine mem_jsSort.mpr (List.mem_filterMap.mpr ⟨f, hf, ?_⟩)
    simp [keepAudio, hvc, hac]
  · intro x hx hx2
    have h1 := hvidmem x hx
    have h2 := haudmem x hx2
    rw [h1] at h2
    exact absurd h2 (by decide)
  · rw [show (processFormats l).video = jsSort videoCompare (l.filterMap keepVideo) from rfl,
        show (processFormats l).audio = jsSort audioCompare (l.filterMap keepAudio) from rfl,
        length_jsSort, length_jsSort]
    exact length_keep_partition l

/-- Witness for claim C2 at the mixed list. -/
theorem claimC2_classification_partition_witness :
    normalizeVideo wVideo ∈ (processFormats wMixed).video
    ∧ normalizeAudio wAudio ∈ (processFormats wMixed).audio :=
  ⟨(claimC2_classification_partition wMixed).1 wVideo (by decide) (by decide),
   (claimC2_classification_partition wMixed).2.1 wAudio (by decide) (by decide) (by decide)⟩
